import Mathlib

/-!
Verification development for the ScrapX marketplace application.

The definitions below are a shallow embedding of the data model and the
operations of the repository: the SQL functions of
src/integrations/supabase/fix_geolocation.sql and
supabase/migrations/20240101000003_get_listing_coordinates.sql, the
negotiations schema of src/integrations/supabase/migration.sql together
with the row level security policies of
src/integrations/supabase/rls_policies.sql, and the client side handlers
of NegotiationDialog.tsx, NegotiationsManager.tsx, MyNegotiations.tsx,
the browse listings page, the my listings page, the edit listing page,
PickupRequest.tsx and src/integrations/github/imageUploader.ts.

Numeric database columns are modelled as rationals, uuid keys as natural
numbers, and text columns as strings.  The PostGIS primitives are
modelled by a point record: ST_MakePoint x y stores x and y, ST_X reads
x and ST_Y reads y, which is the documented PostGIS behaviour used by
the SQL in the repository.
-/

namespace ScrapX

/-- PostGIS point: ST_MakePoint stores the first argument as X and the
second as Y. -/
structure GeoPoint where
  x : ℚ
  y : ℚ
deriving DecidableEq, Repr

/-- ST_MakePoint of PostGIS. -/
def stMakePoint (x y : ℚ) : GeoPoint := ⟨x, y⟩

/-- ST_X of PostGIS. -/
def stX (p : GeoPoint) : ℚ := p.x

/-- ST_Y of PostGIS. -/
def stY (p : GeoPoint) : ℚ := p.y

/-- Geography point as the application stores it.  The stored function
create_geography_point(longitude float8, latitude float8), declared in
src/lib/database.types.ts and invoked by the create listing flow and by
ScrapPickupMap.tsx, builds the PostGIS point from longitude first and
latitude second, exactly as update_test_geolocation in
fix_geolocation.sql does with ST_MakePoint(80.2707, 13.0827) for
longitude 80.2707 and latitude 13.0827.  So longitude is X and latitude
is Y. -/
def create_geography_point (longitude latitude : ℚ) : GeoPoint :=
  stMakePoint longitude latitude

/-- Row of the scrap_listings table, with the columns the claims need. -/
structure ScrapListing where
  id : Nat
  seller_id : Nat
  title : String
  description : String
  material_type_id : Nat
  quantity : ℚ
  unit : String
  listed_price : ℚ
  address : String
  image_url : String
  created_at : Nat
  status : String
  geolocation : Option GeoPoint
deriving DecidableEq, Repr

/-- Row shape returned by get_listings_with_coordinates in
fix_geolocation.sql. -/
structure ListingWithCoordinates where
  id : Nat
  title : String
  description : String
  material_type_id : Nat
  quantity : ℚ
  unit : String
  listed_price : ℚ
  address : String
  latitude : Option ℚ
  longitude : Option ℚ
  status : String
  created_at : Nat
  seller_id : Nat
deriving DecidableEq, Repr

/-- Projection used by get_listings_with_coordinates: the SQL selects
ST_X(geolocation) AS latitude and ST_Y(geolocation) AS longitude (with
NULL fallbacks when geolocation is NULL). -/
def projectListingWithCoordinates (l : ScrapListing) : ListingWithCoordinates :=
  { id := l.id, title := l.title, description := l.description,
    material_type_id := l.material_type_id, quantity := l.quantity,
    unit := l.unit, listed_price := l.listed_price, address := l.address,
    latitude := l.geolocation.map stX,
    longitude := l.geolocation.map stY,
    status := l.status, created_at := l.created_at, seller_id := l.seller_id }

/-- get_listings_with_coordinates of fix_geolocation.sql: selects from
scrap_listings WHERE status is different from the text deleted, and
projects the coordinate columns as above. -/
def get_listings_with_coordinates (listings : List ScrapListing) :
    List ListingWithCoordinates :=
  (listings.filter (fun l => l.status != "deleted")).map projectListingWithCoordinates

/-- Coordinate relevant part of the JSON object built by
get_listing_coordinates in
supabase/migrations/20240101000003_get_listing_coordinates.sql. -/
structure ListingCoordinatesJson where
  id : Nat
  title : String
  listed_price : ℚ
  status : String
  seller_id : Nat
  latitude : Option ℚ
  longitude : Option ℚ
  coordinates : Option (ℚ × ℚ)
deriving DecidableEq, Repr

/-- get_listing_coordinates(listing_id): selects the row of
scrap_listings with the given id and builds a JSON object whose latitude
field is ST_Y(geolocation), whose longitude field is ST_X(geolocation),
and whose geolocation field repeats the raw coordinate array
[ST_X, ST_Y]; NULL when geolocation is NULL or the row is absent. -/
def get_listing_coordinates (listings : List ScrapListing) (listing_id : Nat) :
    Option ListingCoordinatesJson :=
  (listings.find? (fun l => l.id == listing_id)).map (fun l =>
    { id := l.id, title := l.title, listed_price := l.listed_price,
      status := l.status, seller_id := l.seller_id,
      latitude := l.geolocation.map stY,
      longitude := l.geolocation.map stX,
      coordinates := l.geolocation.map (fun p => (stX p, stY p)) })

/-- fetchData of the browse listings page (src/unnamed/part_009): the
query selects all rows of scrap_listings with no status filter at all
(the status filter eq(status, active) is commented out in the source)
and only orders by created_at, so every row, whatever its status, is
returned. -/
def fetchBrowseListings (listings : List ScrapListing) : List ScrapListing :=
  listings

/-- Default point written by update_test_geolocation:
ST_SetSRID(ST_MakePoint(80.2707, 13.0827), 4326), longitude 80.2707 and
latitude 13.0827. -/
def chennaiDefaultPoint : GeoPoint := stMakePoint 80.2707 13.0827

/-- The WHERE clause of the UPDATE in update_test_geolocation:
geolocation IS NULL AND status is different from the text deleted. -/
def needsDefaultGeo (l : ScrapListing) : Bool :=
  l.geolocation.isNone && l.status != "deleted"

/-- update_test_geolocation of fix_geolocation.sql: sets geolocation to
the default point on every row with NULL geolocation and status other
than deleted, and returns the message built from ROW_COUNT. -/
def update_test_geolocation (listings : List ScrapListing) :
    List ScrapListing × String :=
  (listings.map (fun l =>
      if needsDefaultGeo l then { l with geolocation := some chennaiDefaultPoint } else l),
   "Updated " ++ toString (listings.countP needsDefaultGeo) ++ " listings with default location")

/-! Listing mutating operations.  Each operation pairs the database
write issued by the handler with the enabling condition under which the
client offers the action (the render condition of the button or form in
the same component, evaluated on the listing it acts on). -/

/-- Form data written by the edit listing page (src/unnamed/part_006,
handleSubmit): every column of the form except status. -/
structure ListingEditForm where
  title : String
  description : String
  listed_price : ℚ
  quantity : ℚ
  unit : String
  material_type_id : Nat
  image_url : String
deriving DecidableEq, Repr

/-- handleSubmit of the edit listing page: update of the form fields on
the row with the given id owned by the given seller.  The status column
is not part of the update. -/
def editListingSubmit (db : List ScrapListing) (uid lid : Nat)
    (form : ListingEditForm) : List ScrapListing :=
  db.map (fun l =>
    if l.id == lid && l.seller_id == uid then
      { l with title := form.title, description := form.description,
               listed_price := form.listed_price, quantity := form.quantity,
               unit := form.unit, material_type_id := form.material_type_id,
               image_url := form.image_url }
    else l)

/-- The write of handleWalletSuccess (src/unnamed/part_009 and
src/unnamed/part_014): update status to sold on the row with the given
id and seller. -/
def markAsSoldWrite (db : List ScrapListing) (uid lid : Nat) : List ScrapListing :=
  db.map (fun l =>
    if l.id == lid && l.seller_id == uid then { l with status := "sold" } else l)

/-- Mark as sold from the my listings page (src/unnamed/part_014): the
card is rendered only when status is not deleted, and the Mark Sold
button only when status is not sold. -/
def myListingsMarkAsSold (db : List ScrapListing) (uid lid : Nat) : List ScrapListing :=
  match db.find? (fun l => l.id == lid) with
  | some l =>
      if l.status != "deleted" && l.status != "sold" then markAsSoldWrite db uid lid else db
  | none => db

/-- Mark as sold from the browse listings page (src/unnamed/part_009):
the button is rendered only when status is active and the viewer is the
seller. -/
def browseMarkAsSold (db : List ScrapListing) (uid lid : Nat) : List ScrapListing :=
  match db.find? (fun l => l.id == lid) with
  | some l =>
      if l.status == "active" && l.seller_id == uid then markAsSoldWrite db uid lid else db
  | none => db

/-- The write of handleRequestPickup (src/pages/PickupRequest.tsx):
update status to pending_pickup on the row with the given id, with no
seller and no status condition in the write itself.  The accompanying
insert into the transactions table is outside the listing model. -/
def requestPickupWrite (db : List ScrapListing) (lid : Nat) : List ScrapListing :=
  db.map (fun l => if l.id == lid then { l with status := "pending_pickup" } else l)

/-- Request pickup (src/pages/PickupRequest.tsx): the request button is
rendered only when the listing status is active; otherwise the page
shows a notice that the listing is not available for requests. -/
def requestPickup (db : List ScrapListing) (lid : Nat) : List ScrapListing :=
  match db.find? (fun l => l.id == lid) with
  | some l => if l.status == "active" then requestPickupWrite db lid else db
  | none => db

/-- The listing operations named by the monotonicity claim: mark as
sold (both pages), request pickup, and edit. -/
inductive ListingAction where
  | edit (uid lid : Nat) (form : ListingEditForm)
  | markSoldMyListings (uid lid : Nat)
  | markSoldBrowse (uid lid : Nat)
  | pickupRequest (lid : Nat)
deriving Repr

def applyListingAction (a : ListingAction) (db : List ScrapListing) : List ScrapListing :=
  match a with
  | .edit uid lid form => editListingSubmit db uid lid form
  | .markSoldMyListings uid lid => myListingsMarkAsSold db uid lid
  | .markSoldBrowse uid lid => browseMarkAsSold db uid lid
  | .pickupRequest lid => requestPickup db lid

/-- Primary keys are unique: the id column of scrap_listings is the
primary key. -/
def ListingIdsNodup (db : List ScrapListing) : Prop :=
  (db.map ScrapListing.id).Nodup

/-! Negotiations: the table of migration.sql, the database insert with
its constraints, and the client handlers that mutate rows. -/

/-- Row of the negotiations table (migration.sql lines 36 to 51). -/
structure Negotiation where
  id : Nat
  listing_id : Nat
  dealer_id : Nat
  seller_id : Nat
  initial_offer : ℚ
  counter_offer : Option ℚ
  status : String
deriving DecidableEq, Repr

/-- Database state for the negotiation flows: the listings and user
rows the foreign keys of negotiations point at, the negotiation rows,
and the id supply of the primary key default gen_random_uuid, modelled
as a fresh counter. -/
structure NegotiationsDb where
  listings : List ScrapListing
  userIds : List Nat
  negotiations : List Negotiation
  nextId : Nat
deriving Repr

/-- Error codes the dialog code branches on, plus a catch all for its
final else branch. -/
inductive DbError where
  | uniqueViolation
  | fkViolation
  | otherError
deriving DecidableEq, Repr

/-- Insert into the negotiations table under the constraints of
migration.sql: the only uniqueness constraint is the primary key on id
(there is no uniqueness constraint on the pair listing_id, dealer_id),
and the three foreign keys must resolve.  Error 23505 is returned
exactly on a primary key clash and 23503 on a dangling reference. -/
def insertNegotiationRow (db : NegotiationsDb) (row : Negotiation) :
    Except DbError NegotiationsDb :=
  if db.negotiations.any (fun n => n.id == row.id) then
    .error .uniqueViolation
  else if !(db.listings.any (fun l => l.id == row.listing_id)) then
    .error .fkViolation
  else if !(db.userIds.contains row.dealer_id) || !(db.userIds.contains row.seller_id) then
    .error .fkViolation
  else
    .ok { db with negotiations := db.negotiations ++ [row] }

/-- Update the negotiation rows matching a condition, as a supabase
update().eq() chain does. -/
def updateNegotiationsWhere (db : NegotiationsDb) (cond : Negotiation → Bool)
    (f : Negotiation → Negotiation) : NegotiationsDb :=
  { db with negotiations := db.negotiations.map (fun n => if cond n then f n else n) }

/-- The unique violation fallback of handleSubmit in
NegotiationDialog.tsx (lines 172 to 176): when the insert reports error
23505, update initial_offer and set status to pending on the rows with
the given listing_id and dealer_id.  No status condition restricts the
update. -/
def fallbackPendingUpdate (db : NegotiationsDb) (listingId dealerId : Nat)
    (offer : ℚ) : NegotiationsDb :=
  updateNegotiationsWhere db
    (fun n => n.listing_id == listingId && n.dealer_id == dealerId)
    (fun n => { n with initial_offer := offer, status := "pending" })

/-- The last resort rpc call of handleSubmit names the stored procedure
insert_negotiation_with_seller, but the SQL files only define
insert_negotiation (fix_negotiations.sql and insert_negotiation.sql),
so the call reports an undefined function error and changes nothing. -/
def rpcInsertNegotiationWithSeller (_db : NegotiationsDb) :
    Except DbError NegotiationsDb :=
  .error .otherError

/-- The fresh pending row handleSubmit inserts: primary key from the
id supply, the acting user as dealer, the seller read from the verified
listing. -/
def submittedRow (db : NegotiationsDb) (uid listingId : Nat) (offer : ℚ)
    (sellerId : Nat) : Negotiation :=
  { id := db.nextId, listing_id := listingId, dealer_id := uid,
    seller_id := sellerId, initial_offer := offer,
    counter_offer := none, status := "pending" }

/-- Branching of handleSubmit on the insert outcome: success keeps the
inserted row and advances the id supply, error 23503 surfaces an error
and changes nothing, error 23505 runs the fallback pending update on
the (listing, dealer) pair, and any other error tries the missing
stored procedure insert_negotiation_with_seller and then surfaces the
original error, changing nothing. -/
def submitInsertOutcome (db : NegotiationsDb) (uid listingId : Nat) (offer : ℚ) :
    Except DbError NegotiationsDb → NegotiationsDb
  | .ok db1 => { db1 with nextId := db1.nextId + 1 }
  | .error .fkViolation => db
  | .error .uniqueViolation => fallbackPendingUpdate db listingId uid offer
  | .error .otherError =>
      match rpcInsertNegotiationWithSeller db with
      | .ok db1 => db1
      | .error _ => db

/-- handleSubmit of NegotiationDialog.tsx: reject a non positive offer,
verify the listing row to read its seller, insert a fresh pending row
for (listing, dealer), and dispatch on the outcome as above. -/
def handleSubmitOffer (db : NegotiationsDb) (uid listingId : Nat) (offer : ℚ) :
    NegotiationsDb :=
  if offer ≤ 0 then db
  else
    match db.listings.find? (fun l => l.id == listingId) with
    | none => db
    | some listing =>
        submitInsertOutcome db uid listingId offer
          (insertNegotiationRow db (submittedRow db uid listingId offer listing.seller_id))

/-- handleAcceptOffer of NegotiationsManager.tsx: update status to
accepted on the row with the given id, with no status condition. -/
def handleAcceptOffer (db : NegotiationsDb) (nid : Nat) : NegotiationsDb :=
  updateNegotiationsWhere db (fun n => n.id == nid)
    (fun n => { n with status := "accepted" })

/-- handleRejectOffer of NegotiationsManager.tsx: update status to
rejected on the row with the given id, with no status condition. -/
def handleRejectOffer (db : NegotiationsDb) (nid : Nat) : NegotiationsDb :=
  updateNegotiationsWhere db (fun n => n.id == nid)
    (fun n => { n with status := "rejected" })

/-- handleCounterOffer of NegotiationsManager.tsx: reject a non
positive amount, otherwise update counter_offer and set status to
countered on the row with the given id, with no status condition. -/
def handleCounterOffer (db : NegotiationsDb) (nid : Nat) (amount : ℚ) :
    NegotiationsDb :=
  if amount ≤ 0 then db
  else
    updateNegotiationsWhere db (fun n => n.id == nid)
      (fun n => { n with counter_offer := some amount, status := "countered" })

/-- Accept of the counter offer block in NegotiationDialog.tsx (rendered
only when the existing negotiation has status countered): update status
to accepted on the row with the given id. -/
def dialogAcceptCounter (db : NegotiationsDb) (nid : Nat) : NegotiationsDb :=
  updateNegotiationsWhere db (fun n => n.id == nid)
    (fun n => { n with status := "accepted" })

/-- Decline of the counter offer block in NegotiationDialog.tsx: update
status to rejected on the row with the given id. -/
def dialogDeclineCounter (db : NegotiationsDb) (nid : Nat) : NegotiationsDb :=
  updateNegotiationsWhere db (fun n => n.id == nid)
    (fun n => { n with status := "rejected" })

/-- handleAcceptCounterOffer of MyNegotiations.tsx: update status to
accepted on the row with the given id and dealer_id equal to the acting
user. -/
def handleAcceptCounterOffer (db : NegotiationsDb) (uid nid : Nat) : NegotiationsDb :=
  updateNegotiationsWhere db (fun n => n.id == nid && n.dealer_id == uid)
    (fun n => { n with status := "accepted" })

/-- handleRejectCounterOffer of MyNegotiations.tsx: update status to
rejected on the row with the given id and dealer_id equal to the acting
user. -/
def handleRejectCounterOffer (db : NegotiationsDb) (uid nid : Nat) : NegotiationsDb :=
  updateNegotiationsWhere db (fun n => n.id == nid && n.dealer_id == uid)
    (fun n => { n with status := "rejected" })

/-- Every remote mutation of the negotiation flows: the offer
submission path of the dialog, the seller actions of the manager, the
counter offer response of the dialog, and the counter offer response of
the my negotiations page. -/
inductive NegAction where
  | submitOffer (uid listingId : Nat) (offer : ℚ)
  | managerAccept (nid : Nat)
  | managerReject (nid : Nat)
  | managerCounter (nid : Nat) (amount : ℚ)
  | dialogAccept (nid : Nat)
  | dialogDecline (nid : Nat)
  | pageAccept (uid nid : Nat)
  | pageReject (uid nid : Nat)
deriving Repr

def applyNegAction (a : NegAction) (db : NegotiationsDb) : NegotiationsDb :=
  match a with
  | .submitOffer uid listingId offer => handleSubmitOffer db uid listingId offer
  | .managerAccept nid => handleAcceptOffer db nid
  | .managerReject nid => handleRejectOffer db nid
  | .managerCounter nid amount => handleCounterOffer db nid amount
  | .dialogAccept nid => dialogAcceptCounter db nid
  | .dialogDecline nid => dialogDeclineCounter db nid
  | .pageAccept uid nid => handleAcceptCounterOffer db uid nid
  | .pageReject uid nid => handleRejectCounterOffer db uid nid

/-- Well formedness of the negotiations store: primary keys are unique
and below the fresh id supply. -/
structure NegDbWf (db : NegotiationsDb) : Prop where
  idBound : ∀ n ∈ db.negotiations, n.id < db.nextId
  idsNodup : (db.negotiations.map Negotiation.id).Nodup

/-- The guard under which the dialog reaches handleSubmit: the offer
form is rendered only when checkExistingNegotiation found no existing
negotiation row for this listing and dealer (the query of
NegotiationDialog.tsx lines 67 to 81 filters by listing_id and
dealer_id with no status filter). -/
def noExistingNegotiation (db : NegotiationsDb) (uid listingId : Nat) : Bool :=
  db.negotiations.all (fun n => !(n.listing_id == listingId && n.dealer_id == uid))

/-- One user action of the negotiation workflow, read and write taken
together (the sequential reading in which the state the guard was
evaluated on is the state the write hits). -/
inductive NegStep (db : NegotiationsDb) : NegotiationsDb → Prop where
  | submit (uid listingId : Nat) (offer : ℚ)
      (hguard : noExistingNegotiation db uid listingId = true) :
      NegStep db (handleSubmitOffer db uid listingId offer)
  | managerAccept (nid : Nat) : NegStep db (handleAcceptOffer db nid)
  | managerReject (nid : Nat) : NegStep db (handleRejectOffer db nid)
  | managerCounter (nid : Nat) (amount : ℚ) :
      NegStep db (handleCounterOffer db nid amount)
  | dialogAccept (nid : Nat) : NegStep db (dialogAcceptCounter db nid)
  | dialogDecline (nid : Nat) : NegStep db (dialogDeclineCounter db nid)
  | pageAccept (uid nid : Nat) : NegStep db (handleAcceptCounterOffer db uid nid)
  | pageReject (uid nid : Nat) : NegStep db (handleRejectCounterOffer db uid nid)

/-- States reachable by the negotiation workflow from a store with no
negotiation rows. -/
inductive NegReachable : NegotiationsDb → Prop where
  | init (db : NegotiationsDb) (h : db.negotiations = []) : NegReachable db
  | step (db db1 : NegotiationsDb) (h : NegReachable db) (hs : NegStep db db1) :
      NegReachable db1

/-- Number of pending rows of a (listing, dealer) pair. -/
def pendingPairCount (db : NegotiationsDb) (listingId dealerId : Nat) : Nat :=
  db.negotiations.countP
    (fun n => n.listing_id == listingId && n.dealer_id == dealerId && n.status == "pending")

/-- Number of rows of a (listing, dealer) pair, pending or not. -/
def pairCount (db : NegotiationsDb) (listingId dealerId : Nat) : Nat :=
  db.negotiations.countP
    (fun n => n.listing_id == listingId && n.dealer_id == dealerId)

/-! Row level transitions of a single negotiation, as offered by the
clients.  The manager on the pickup page is instantiated with a
listingId (PickupRequest.tsx renders NegotiationsManager with the
listing id); in that mode its fetch keeps rows of every status (the
pending filter of fetchNegotiations only applies without a listingId)
and the accept, reject and counter buttons are rendered on every row,
so the seller actions carry no status condition.  The buyer responses
are rendered only on a row whose status is countered, both in
NegotiationDialog.tsx and on the countered tab of MyNegotiations.tsx. -/

inductive ProgramNegotiationStep : Negotiation → Negotiation → Prop where
  | sellerAccept (n : Negotiation) :
      ProgramNegotiationStep n { n with status := "accepted" }
  | sellerReject (n : Negotiation) :
      ProgramNegotiationStep n { n with status := "rejected" }
  | sellerCounter (n : Negotiation) (amount : ℚ) (h : 0 < amount) :
      ProgramNegotiationStep n { n with counter_offer := some amount, status := "countered" }
  | buyerAcceptCounter (n : Negotiation) (h : n.status = "countered") :
      ProgramNegotiationStep n { n with status := "accepted" }
  | buyerDeclineCounter (n : Negotiation) (h : n.status = "countered") :
      ProgramNegotiationStep n { n with status := "rejected" }

/-- The step relation exactly as the specification describes it: from
pending the seller may counter (writing counter_offer), accept or
reject; from countered the buyer may accept or reject; nothing else. -/
inductive SpecNegotiationStep : Negotiation → Negotiation → Prop where
  | sellerCounter (n : Negotiation) (amount : ℚ)
      (h : n.status = "pending") (ha : 0 < amount) :
      SpecNegotiationStep n { n with counter_offer := some amount, status := "countered" }
  | sellerAccept (n : Negotiation) (h : n.status = "pending") :
      SpecNegotiationStep n { n with status := "accepted" }
  | sellerReject (n : Negotiation) (h : n.status = "pending") :
      SpecNegotiationStep n { n with status := "rejected" }
  | buyerAccept (n : Negotiation) (h : n.status = "countered") :
      SpecNegotiationStep n { n with status := "accepted" }
  | buyerDecline (n : Negotiation) (h : n.status = "countered") :
      SpecNegotiationStep n { n with status := "rejected" }

/-! Row level security policies on negotiations, from rls_policies.sql
lines 54 to 80.  Permissive policies combine by disjunction: a SELECT
sees a row when some SELECT policy passes, and an UPDATE is allowed
when the old row passes the USING clause of some policy and the new row
passes the WITH CHECK clause of some policy. -/

/-- USING clause of the policy Users can view their negotiations. -/
def negSelectPolicy (uid : Nat) (n : Negotiation) : Bool :=
  uid == n.dealer_id || uid == n.seller_id

/-- WITH CHECK clause of the policy Users can create negotiations. -/
def negInsertPolicy (uid : Nat) (n : Negotiation) : Bool :=
  uid == n.dealer_id

/-- Update permission combining the two UPDATE policies: Dealers can
update their own negotiations (USING uid = dealer_id, WITH CHECK
uid = dealer_id and status neither accepted nor rejected) and Sellers
can update negotiations (USING and WITH CHECK uid = seller_id). -/
def negUpdateAllowed (uid : Nat) (old new : Negotiation) : Bool :=
  (uid == old.dealer_id || uid == old.seller_id) &&
  ((uid == new.dealer_id && new.status != "accepted" && new.status != "rejected") ||
   uid == new.seller_id)

/-- The negotiation rows a SELECT by the given user returns. -/
def visibleNegotiations (uid : Nat) (db : NegotiationsDb) : List Negotiation :=
  db.negotiations.filter (negSelectPolicy uid)

/-! Local component state of NegotiationsManager.tsx: each handler
issues one remote update and only on success removes the row from the
local list; on failure it shows a destructive toast and leaves the list
alone. -/

/-- Outcome of the one remote call a manager handler makes. -/
inductive RemoteResult where
  | ok
  | error (msg : String)
deriving DecidableEq, Repr

/-- Toast notification as the handlers build it. -/
structure ToastMsg where
  title : String
  description : String
  destructive : Bool
deriving DecidableEq, Repr

/-- handleAcceptOffer on the local list: on a remote error the catch
block shows a destructive toast and the list is untouched; on success
the row is filtered out. -/
def acceptOfferLocal (negs : List Negotiation) (nid : Nat) (remote : RemoteResult) :
    List Negotiation × ToastMsg :=
  match remote with
  | .error m => (negs, ⟨"Error", m, true⟩)
  | .ok => (negs.filter (fun n => n.id != nid),
            ⟨"Offer Accepted", "You have accepted the dealers offer", false⟩)

/-- handleRejectOffer on the local list. -/
def rejectOfferLocal (negs : List Negotiation) (nid : Nat) (remote : RemoteResult) :
    List Negotiation × ToastMsg :=
  match remote with
  | .error m => (negs, ⟨"Error", m, true⟩)
  | .ok => (negs.filter (fun n => n.id != nid),
            ⟨"Offer Rejected", "You have rejected the dealers offer", false⟩)

/-- handleCounterOffer on the local list: an invalid amount is refused
before any remote call; a remote error leaves the list untouched; on
success the row is filtered out. -/
def counterOfferLocal (negs : List Negotiation) (nid : Nat) (amount : ℚ)
    (remote : RemoteResult) : List Negotiation × ToastMsg :=
  if amount ≤ 0 then
    (negs, ⟨"Invalid Amount", "Please enter a valid counter offer amount", true⟩)
  else
    match remote with
    | .error m => (negs, ⟨"Error", m, true⟩)
    | .ok => (negs.filter (fun n => n.id != nid),
              ⟨"Counter Offer Sent", "Your counter offer has been sent to the dealer", false⟩)

/-! Image uploader, src/integrations/github/imageUploader.ts. -/

/-- GitHub configuration from the environment; a missing variable is
the empty string, which is falsy in the check of the source. -/
structure GitHubEnv where
  token : String
  username : String
  repo : String
deriving DecidableEq, Repr

/-- Character sanitizer of the file name: the regex replaces every
character outside a to z, A to Z, 0 to 9, dot and hyphen by an
underscore. -/
def sanitizeChar (c : Char) : Char :=
  if c.isAlphanum || c == '.' || c == '-' then c else '_'

def sanitizeFileName (s : String) : String :=
  ⟨s.data.map sanitizeChar⟩

/-- uploadImageToGitHub: throws when the configuration is incomplete,
builds the file name from the timestamp, the random string and the
sanitized original name, uploads, throws when the upload request fails,
and otherwise returns the jsDelivr URL for username, repo, branch main
and path images slash the file name. -/
def uploadImageToGitHub (env : GitHubEnv) (origName : String) (timestamp : Nat)
    (randomString : String) (uploadOk : Bool) : Except String String :=
  if env.token == "" || env.username == "" || env.repo == "" then
    .error "GitHub configuration is incomplete. Check your environment variables."
  else
    let fileName := toString timestamp ++ "_" ++ randomString ++ "_" ++ sanitizeFileName origName
    let path := "images/" ++ fileName
    if !uploadOk then
      .error "Failed to upload to GitHub"
    else
      .ok ("https://cdn.jsdelivr.net/gh/" ++ env.username ++ "/" ++ env.repo ++ "@main/" ++ path)

/-- Concrete listing used by counterexamples and witnesses. -/
def demoBase : ScrapListing :=
  { id := 1, seller_id := 7, title := "Copper scrap", description := "demo",
    material_type_id := 3, quantity := 5, unit := "kg", listed_price := 1200,
    address := "Chennai", image_url := "", created_at := 10,
    status := "active", geolocation := none }

/-- Concrete soft deleted listing. -/
def demoDeleted : ScrapListing := { demoBase with id := 2, status := "deleted" }

/-- Concrete listing with a stored point built from latitude 13.0827 and
longitude 80.2707. -/
def demoLocated : ScrapListing :=
  { demoBase with geolocation := some (create_geography_point 80.2707 13.0827) }

/-- Concrete sold listing. -/
def demoSold : ScrapListing := { demoBase with status := "sold" }

/-- Concrete pending negotiation of dealer 3 with seller 7 on listing 1. -/
def demoNeg : Negotiation :=
  { id := 0, listing_id := 1, dealer_id := 3, seller_id := 7,
    initial_offer := 900, counter_offer := none, status := "pending" }

/-- Concrete rejected negotiation. -/
def demoRejected : Negotiation := { demoNeg with status := "rejected" }

/-- Concrete negotiation store holding the one pending demo negotiation. -/
def demoNegDb : NegotiationsDb :=
  { listings := [demoBase], userIds := [3, 7], negotiations := [demoNeg], nextId := 1 }

end ScrapX

namespace ScrapX

/-- C3, counterexample.  A listing stores the point built from latitude
13.0827 and longitude 80.2707 (create_geography_point receives the
longitude first).  get_listings_with_coordinates labels ST_X, which is
the stored longitude 80.2707, as latitude, so the extracted latitude is
not the stored latitude: the round trip fails for this function. -/
theorem coordinate_roundtrip_counterexample :
    (get_listings_with_coordinates [demoLocated]).map ListingWithCoordinates.latitude
        = [some (80.2707 : ℚ)] ∧
    (get_listings_with_coordinates [demoLocated]).map ListingWithCoordinates.longitude
        = [some (13.0827 : ℚ)] ∧
    (80.2707 : ℚ) ≠ 13.0827 := by
  refine ⟨rfl, rfl, by norm_num⟩

/-- C3, amended.  For a listing whose geolocation is the stored point
built from a (latitude, longitude) pair, get_listing_coordinates
returns exactly that pair (latitude from ST_Y, longitude from ST_X),
while get_listings_with_coordinates returns the pair swapped: its
latitude column carries the stored longitude and its longitude column
the stored latitude. -/
theorem coordinate_roundtrip_amended (lat lng : ℚ) (l : ScrapListing)
    (hgeo : l.geolocation = some (create_geography_point lng lat)) :
    (∃ j, get_listing_coordinates [l] l.id = some j ∧
        j.latitude = some lat ∧ j.longitude = some lng) ∧
    (l.status ≠ "deleted" →
        ∃ r, get_listings_with_coordinates [l] = [r] ∧
          r.latitude = some lng ∧ r.longitude = some lat) := by
  constructor
  · refine Exists.intro
      ⟨l.id, l.title, l.listed_price, l.status, l.seller_id,
        some lat, some lng, some (lng, lat)⟩ ⟨?_, rfl, rfl⟩
    have hfind : List.find? (fun x => x.id == l.id) [l] = some l := by simp
    simp [get_listing_coordinates, hfind, hgeo, create_geography_point, stMakePoint,
      stX, stY]
  · intro hs
    have hbne : (l.status != "deleted") = true := by simpa [bne_iff_ne] using hs
    refine ⟨projectListingWithCoordinates l, ?_, ?_, ?_⟩
    · simp [get_listings_with_coordinates, List.filter_cons, hbne]
    · simp [projectListingWithCoordinates, hgeo, create_geography_point, stMakePoint, stX]
    · simp [projectListingWithCoordinates, hgeo, create_geography_point, stMakePoint, stY]

/-- Witness for the amended round trip theorem at the concrete located
listing. -/
theorem coordinate_roundtrip_amended_witness :
    ((∃ j, get_listing_coordinates [demoLocated] demoLocated.id = some j ∧
        j.latitude = some (13.0827 : ℚ) ∧ j.longitude = some (80.2707 : ℚ)) ∧
     (demoLocated.status ≠ "deleted" →
        ∃ r, get_listings_with_coordinates [demoLocated] = [r] ∧
          r.latitude = some (80.2707 : ℚ) ∧ r.longitude = some (13.0827 : ℚ))) :=
  coordinate_roundtrip_amended 13.0827 80.2707 demoLocated rfl

/-- C8, counterexample.  The browse listings fetch has no status filter
(the filter is commented out in the source), so a listing with status
deleted is returned by it, contradicting the part of the claim that the
browse fetch returns no deleted listing. -/
theorem soft_delete_browse_counterexample :
    demoDeleted ∈ fetchBrowseListings [demoDeleted] ∧ demoDeleted.status = "deleted" := by
  exact ⟨List.mem_singleton.mpr rfl, rfl⟩

/-- C8, amended.  get_listings_with_coordinates returns exactly the
projections of the listings whose status is not deleted, but the browse
listings fetch returns every listing whatever its status, deleted rows
included. -/
theorem soft_delete_amended :
    (∀ (listings : List ScrapListing) (r : ListingWithCoordinates),
        r ∈ get_listings_with_coordinates listings ↔
          ∃ l ∈ listings, l.status ≠ "deleted" ∧ r = projectListingWithCoordinates l) ∧
    (∀ listings : List ScrapListing, fetchBrowseListings listings = listings) := by
  constructor
  · intro listings r
    simp only [get_listings_with_coordinates, List.mem_map, List.mem_filter,
      bne_iff_ne]
    constructor
    · rintro ⟨l, ⟨hl, hs⟩, hr⟩
      exact ⟨l, hl, hs, hr.symm⟩
    · rintro ⟨l, hl, hs, hr⟩
      exact ⟨l, ⟨hl, hs⟩, hr.symm⟩
  · intro listings
    rfl

/-- C9.  update_test_geolocation maps each row either to itself (when
it already has a geolocation or is deleted) or to the same row with
geolocation set to the default Chennai point; every other column of
every row is unchanged, the length is unchanged, and the returned
message is the updated count followed by the fixed text. -/
theorem update_test_geolocation_spec (listings : List ScrapListing) :
    (update_test_geolocation listings).2 =
      "Updated " ++ toString (listings.countP needsDefaultGeo) ++
        " listings with default location" ∧
    (update_test_geolocation listings).1.length = listings.length ∧
    ∀ (i : ℕ) (l : ScrapListing), listings[i]? = some l →
      ∃ l2 : ScrapListing, ((update_test_geolocation listings).1)[i]? = some l2 ∧
        l2.id = l.id ∧ l2.seller_id = l.seller_id ∧ l2.title = l.title ∧
        l2.description = l.description ∧ l2.material_type_id = l.material_type_id ∧
        l2.quantity = l.quantity ∧ l2.unit = l.unit ∧
        l2.listed_price = l.listed_price ∧ l2.address = l.address ∧
        l2.image_url = l.image_url ∧ l2.created_at = l.created_at ∧
        l2.status = l.status ∧
        (needsDefaultGeo l = true → l2.geolocation = some chennaiDefaultPoint) ∧
        (needsDefaultGeo l = false → l2.geolocation = l.geolocation) := by
  refine ⟨rfl, by simp [update_test_geolocation], ?_⟩
  intro i l hl
  refine ⟨if needsDefaultGeo l then { l with geolocation := some chennaiDefaultPoint } else l,
    ?_, ?_⟩
  · show (listings.map _)[i]? = _
    rw [List.getElem?_map, hl]
    rfl
  · by_cases h : needsDefaultGeo l <;> simp [h]

/-- Witness for the update_test_geolocation theorem at a concrete two
row store: the base row has no geolocation and is updated, the deleted
row is left alone. -/
theorem update_test_geolocation_spec_witness :
    (update_test_geolocation [demoBase, demoDeleted]).2 =
      "Updated " ++ toString ([demoBase, demoDeleted].countP needsDefaultGeo) ++
        " listings with default location" ∧
    ∃ l2 : ScrapListing, ((update_test_geolocation [demoBase, demoDeleted]).1)[0]? = some l2 ∧
      l2.id = demoBase.id ∧ l2.seller_id = demoBase.seller_id ∧
      l2.title = demoBase.title ∧ l2.description = demoBase.description ∧
      l2.material_type_id = demoBase.material_type_id ∧
      l2.quantity = demoBase.quantity ∧ l2.unit = demoBase.unit ∧
      l2.listed_price = demoBase.listed_price ∧ l2.address = demoBase.address ∧
      l2.image_url = demoBase.image_url ∧ l2.created_at = demoBase.created_at ∧
      l2.status = demoBase.status ∧
      (needsDefaultGeo demoBase = true → l2.geolocation = some chennaiDefaultPoint) ∧
      (needsDefaultGeo demoBase = false → l2.geolocation = demoBase.geolocation) := by
  have h := update_test_geolocation_spec [demoBase, demoDeleted]
  exact ⟨h.1, h.2.2 0 demoBase rfl⟩

/-- C10.  uploadImageToGitHub either throws or returns exactly the
jsDelivr URL for username, repo, branch main and the file name built
from the timestamp, the random string and the sanitized original name;
with incomplete configuration or a failed upload request it throws. -/
theorem uploadImageToGitHub_spec (env : GitHubEnv) (origName : String)
    (t : Nat) (r : String) (ok : Bool) :
    (∀ url, uploadImageToGitHub env origName t r ok = .ok url →
        url = "https://cdn.jsdelivr.net/gh/" ++ env.username ++ "/" ++ env.repo ++
          "@main/" ++ ("images/" ++
            (toString t ++ "_" ++ r ++ "_" ++ sanitizeFileName origName))) ∧
    ((env.token = "" ∨ env.username = "" ∨ env.repo = "" ∨ ok = false) →
        ∃ e, uploadImageToGitHub env origName t r ok = .error e) := by
  constructor
  · intro url hurl
    unfold uploadImageToGitHub at hurl
    by_cases hc : (env.token == "" || env.username == "" || env.repo == "") = true
    · rw [if_pos hc] at hurl
      exact absurd hurl (by simp)
    · rw [if_neg hc] at hurl
      cases ok with
      | false => exact absurd hurl (by simp)
      | true =>
          simp only [Bool.not_true, if_false] at hurl
          exact (Except.ok.inj hurl).symm
  · intro h
    by_cases hc : (env.token == "" || env.username == "" || env.repo == "") = true
    · refine ⟨"GitHub configuration is incomplete. Check your environment variables.", ?_⟩
      unfold uploadImageToGitHub
      rw [if_pos hc]
    · have hok : ok = false := by
        rcases h with h | h | h | h
        · exact absurd (by simp [h]) hc
        · exact absurd (by simp [h]) hc
        · exact absurd (by simp [h]) hc
        · exact h
      refine ⟨"Failed to upload to GitHub", ?_⟩
      unfold uploadImageToGitHub
      rw [if_neg hc, hok]
      simp

/-- Witness for the uploader theorem: a complete configuration and a
successful upload yield the URL, and an empty token yields an error. -/
theorem uploadImageToGitHub_spec_witness :
    ("https://cdn.jsdelivr.net/gh/user/repo@main/images/5_ab_my_pic.png" =
      "https://cdn.jsdelivr.net/gh/" ++ "user" ++ "/" ++ "repo" ++ "@main/" ++
        ("images/" ++ (toString 5 ++ "_" ++ "ab" ++ "_" ++ sanitizeFileName "my pic.png"))) ∧
    (∃ e, uploadImageToGitHub ⟨"", "user", "repo"⟩ "x" 1 "a" true = .error e) :=
  ⟨(uploadImageToGitHub_spec ⟨"tok", "user", "repo"⟩ "my pic.png" 5 "ab" true).1 _ (by rfl),
   (uploadImageToGitHub_spec ⟨"", "user", "repo"⟩ "x" 1 "a" true).2 (Or.inl rfl)⟩

/-- C7.  Each manager mutation is atomic on the local list: on a remote
error the list is unchanged and a destructive toast is shown (for the
counter this also covers the invalid amount refusal, which happens
before any remote call), and only on success is the row removed. -/
theorem manager_mutation_atomicity (negs : List Negotiation) (nid : Nat)
    (amount : ℚ) (m : String) :
    ((acceptOfferLocal negs nid (RemoteResult.error m)).1 = negs ∧
     (acceptOfferLocal negs nid (RemoteResult.error m)).2.destructive = true) ∧
    ((rejectOfferLocal negs nid (RemoteResult.error m)).1 = negs ∧
     (rejectOfferLocal negs nid (RemoteResult.error m)).2.destructive = true) ∧
    ((counterOfferLocal negs nid amount (RemoteResult.error m)).1 = negs ∧
     (counterOfferLocal negs nid amount (RemoteResult.error m)).2.destructive = true) ∧
    (acceptOfferLocal negs nid RemoteResult.ok).1 = negs.filter (fun n => n.id != nid) ∧
    (rejectOfferLocal negs nid RemoteResult.ok).1 = negs.filter (fun n => n.id != nid) ∧
    (counterOfferLocal negs nid amount RemoteResult.ok).1 =
      (if amount ≤ 0 then negs else negs.filter (fun n => n.id != nid)) := by
  refine ⟨⟨rfl, rfl⟩, ⟨rfl, rfl⟩, ?_, rfl, rfl, ?_⟩
  · by_cases h : amount ≤ 0
    · simp [counterOfferLocal, h]
    · simp [counterOfferLocal, h]
  · by_cases h : amount ≤ 0
    · simp [counterOfferLocal, h]
    · simp [counterOfferLocal, h]

/-- C6.  Under the policies of rls_policies.sql a negotiation row is
visible to a user exactly when the user is its dealer or its seller, a
row may be inserted exactly by its dealer, and a user who is neither
dealer nor seller of a row is not allowed to update it. -/
theorem negotiations_rls_policies (uid : Nat) (db : NegotiationsDb)
    (n old new : Negotiation) :
    (n ∈ visibleNegotiations uid db ↔
        n ∈ db.negotiations ∧ (uid = n.dealer_id ∨ uid = n.seller_id)) ∧
    (negInsertPolicy uid n = true ↔ uid = n.dealer_id) ∧
    (uid ≠ old.dealer_id → uid ≠ old.seller_id →
        negUpdateAllowed uid old new = false) := by
  refine ⟨?_, ?_, ?_⟩
  · simp [visibleNegotiations, List.mem_filter, negSelectPolicy]
  · simp [negInsertPolicy]
  · intro h1 h2
    have hd : (uid == old.dealer_id) = false := beq_eq_false_iff_ne.mpr h1
    have hs : (uid == old.seller_id) = false := beq_eq_false_iff_ne.mpr h2
    simp [negUpdateAllowed, hd, hs]

/-- Witness for the policy theorem: user 5 is neither dealer 3 nor
seller 7 of the demo negotiation and may not update it; the dealer can
see it. -/
theorem negotiations_rls_policies_witness :
    (demoNeg ∈ visibleNegotiations 3 demoNegDb ↔
        demoNeg ∈ demoNegDb.negotiations ∧
          (3 = demoNeg.dealer_id ∨ 3 = demoNeg.seller_id)) ∧
    negUpdateAllowed 5 demoNeg demoNeg = false :=
  ⟨(negotiations_rls_policies 3 demoNegDb demoNeg demoNeg demoNeg).1,
   (negotiations_rls_policies 5 demoNegDb demoNeg demoNeg demoNeg).2.2
     (by decide) (by decide)⟩

/-- Helper for the step relation counterexample: every transition of
the relation described by the specification starts from a row whose
status is pending or countered. -/
theorem spec_step_source_status (n n1 : Negotiation)
    (h : SpecNegotiationStep n n1) :
    n.status = "pending" ∨ n.status = "countered" := by
  cases h with
  | sellerCounter amount h ha => exact Or.inl h
  | sellerAccept h => exact Or.inl h
  | sellerReject h => exact Or.inl h
  | buyerAccept h => exact Or.inr h
  | buyerDecline h => exact Or.inr h

/-- C5, counterexample.  The negotiations manager rendered for a
specific listing (PickupRequest.tsx) fetches rows of every status and
offers the seller buttons on each of them, so the program admits the
transition from a rejected row to an accepted row; the relation the
specification describes contains no transition out of rejected. -/
theorem negotiation_step_relation_counterexample :
    ProgramNegotiationStep demoRejected { demoRejected with status := "accepted" } ∧
    ¬ SpecNegotiationStep demoRejected { demoRejected with status := "accepted" } := by
  constructor
  · exact ProgramNegotiationStep.sellerAccept demoRejected
  · intro h
    rcases spec_step_source_status _ _ h with hs | hs
    · exact absurd hs (by decide)
    · exact absurd hs (by decide)

/-- C5, amended.  Every transition the specification lists does exist
in the program; but the seller actions are offered whatever the current
status, so the program relation is exactly: from any status the seller
may accept, reject, or counter with a positive amount, and the buyer
responses from countered add nothing beyond those; a transition changes
counter_offer only when its target status is countered. -/
theorem negotiation_step_relation_amended :
    (∀ n n1 : Negotiation, SpecNegotiationStep n n1 → ProgramNegotiationStep n n1) ∧
    (∀ n n1 : Negotiation, ProgramNegotiationStep n n1 ↔
        (n1 = { n with status := "accepted" } ∨
         n1 = { n with status := "rejected" } ∨
         ∃ a, 0 < a ∧ n1 = { n with counter_offer := some a, status := "countered" })) ∧
    (∀ n n1 : Negotiation, ProgramNegotiationStep n n1 →
        n1.counter_offer ≠ n.counter_offer → n1.status = "countered") := by
  refine ⟨?_, ?_, ?_⟩
  · intro n n1 h
    cases h with
    | sellerCounter amount h ha => exact ProgramNegotiationStep.sellerCounter n amount ha
    | sellerAccept h => exact ProgramNegotiationStep.sellerAccept n
    | sellerReject h => exact ProgramNegotiationStep.sellerReject n
    | buyerAccept h => exact ProgramNegotiationStep.buyerAcceptCounter n h
    | buyerDecline h => exact ProgramNegotiationStep.buyerDeclineCounter n h
  · intro n n1
    constructor
    · intro h
      cases h with
      | sellerAccept => exact Or.inl rfl
      | sellerReject => exact Or.inr (Or.inl rfl)
      | sellerCounter amount h => exact Or.inr (Or.inr ⟨amount, h, rfl⟩)
      | buyerAcceptCounter h => exact Or.inl rfl
      | buyerDeclineCounter h => exact Or.inr (Or.inl rfl)
    · rintro (rfl | rfl | ⟨a, ha, rfl⟩)
      · exact ProgramNegotiationStep.sellerAccept n
      · exact ProgramNegotiationStep.sellerReject n
      · exact ProgramNegotiationStep.sellerCounter n a ha
  · intro n n1 h hne
    cases h with
    | sellerCounter amount h => rfl
    | sellerAccept => exact absurd rfl hne
    | sellerReject => exact absurd rfl hne
    | buyerAcceptCounter h => exact absurd rfl hne
    | buyerDeclineCounter h => exact absurd rfl hne

/-- Witness for the amended step relation theorem: the transition the
specification allows from the pending demo negotiation is a program
transition. -/
theorem negotiation_step_relation_amended_witness :
    ProgramNegotiationStep demoNeg { demoNeg with status := "accepted" } :=
  negotiation_step_relation_amended.1 demoNeg { demoNeg with status := "accepted" }
    (SpecNegotiationStep.sellerAccept demoNeg rfl)

/-- Rows with equal primary keys in a store with unique primary keys
are the same row. -/
theorem listing_id_injective {db : List ScrapListing} (h : ListingIdsNodup db)
    {a b : ScrapListing} (ha : a ∈ db) (hb : b ∈ db) (hab : a.id = b.id) : a = b :=
  List.inj_on_of_nodup_map h ha hb hab

/-- A row of a mapped store whose id matches a given row is the image
of that row, when the mapping preserves ids. -/
theorem map_write_on_row {db : List ScrapListing} (hnd : ListingIdsNodup db)
    {f : ScrapListing → ScrapListing} (hfid : ∀ m, (f m).id = m.id)
    {l l2 : ScrapListing} (hl : l ∈ db) (hl2 : l2 ∈ db.map f) (hid : l2.id = l.id) :
    l2 = f l := by
  obtain ⟨m, hm, hfm⟩ := List.mem_map.mp hl2
  have hmid : m.id = l.id := by
    rw [← hfm, hfid] at hid
    exact hid
  rw [← hfm, listing_id_injective hnd hm hl hmid]

/-- The mark as sold write acts on the row with the matching id and
seller and leaves every other row alone. -/
theorem markAsSoldWrite_on_row {db : List ScrapListing} (hnd : ListingIdsNodup db)
    {uid lid : Nat} {l l2 : ScrapListing} (hl : l ∈ db)
    (hl2 : l2 ∈ markAsSoldWrite db uid lid) (hid : l2.id = l.id) :
    l2 = if l.id == lid && l.seller_id == uid then { l with status := "sold" } else l := by
  have hfid : ∀ m : ScrapListing,
      (if m.id == lid && m.seller_id == uid then { m with status := "sold" } else m).id
        = m.id := by
    intro m
    by_cases hc : (m.id == lid && m.seller_id == uid) = true <;> simp [hc]
  exact map_write_on_row hnd hfid hl hl2 hid

/-- The pickup request write acts on the row with the matching id and
leaves every other row alone. -/
theorem requestPickupWrite_on_row {db : List ScrapListing} (hnd : ListingIdsNodup db)
    {lid : Nat} {l l2 : ScrapListing} (hl : l ∈ db)
    (hl2 : l2 ∈ requestPickupWrite db lid) (hid : l2.id = l.id) :
    l2 = if l.id == lid then { l with status := "pending_pickup" } else l := by
  have hfid : ∀ m : ScrapListing,
      (if m.id == lid then { m with status := "pending_pickup" } else m).id = m.id := by
    intro m
    by_cases hc : (m.id == lid) = true <;> simp [hc]
  exact map_write_on_row hnd hfid hl hl2 hid

/-- The edit write never changes the status column of any row. -/
theorem editListingSubmit_status {db : List ScrapListing} (hnd : ListingIdsNodup db)
    {uid lid : Nat} {form : ListingEditForm} {l l2 : ScrapListing} (hl : l ∈ db)
    (hl2 : l2 ∈ editListingSubmit db uid lid form) (hid : l2.id = l.id) :
    l2.status = l.status := by
  have hfid : ∀ m : ScrapListing,
      ((fun m => if m.id == lid && m.seller_id == uid then
          { m with title := form.title, description := form.description,
                   listed_price := form.listed_price, quantity := form.quantity,
                   unit := form.unit, material_type_id := form.material_type_id,
                   image_url := form.image_url }
        else m) m).id = m.id := by
    intro m
    by_cases hc : (m.id == lid && m.seller_id == uid) = true <;> simp [hc]
  have h2 := map_write_on_row hnd hfid hl hl2 hid
  rw [h2]
  by_cases hc : (l.id == lid && l.seller_id == uid) = true <;> simp [hc]

/-- The row a find? by id returns in a store with unique ids is the
member row carrying that id. -/
theorem find?_id_eq {db : List ScrapListing} (hnd : ListingIdsNodup db)
    {lid : Nat} {fnd l : ScrapListing} (hf : db.find? (fun x => x.id == lid) = some fnd)
    (hl : l ∈ db) (hlid : l.id = lid) : fnd = l := by
  refine listing_id_injective hnd (List.mem_of_find?_eq_some hf) hl ?_
  have hp := List.find?_some hf
  rw [beq_iff_eq.mp hp, hlid]

/-- C4.  For the operations the claim names (mark as sold on either
page, request pickup, and edit), a listing whose status is sold or
deleted keeps its status: the edit update does not touch the status
column, and the two mark as sold buttons and the pickup request button
are only offered under render conditions that exclude sold and deleted
listings. -/
theorem listing_terminal_status_monotonic (db : List ScrapListing)
    (hnd : ListingIdsNodup db) (a : ListingAction) (l : ScrapListing)
    (hl : l ∈ db) (hterm : l.status = "sold" ∨ l.status = "deleted")
    (l2 : ScrapListing) (hl2 : l2 ∈ applyListingAction a db) (hid : l2.id = l.id) :
    l2.status = l.status := by
  cases a with
  | edit uid lid form =>
      exact editListingSubmit_status hnd hl hl2 hid
  | markSoldMyListings uid lid =>
      simp only [applyListingAction, myListingsMarkAsSold] at hl2
      cases hf : db.find? (fun x => x.id == lid) with
      | none =>
          rw [hf] at hl2
          rw [listing_id_injective hnd hl2 hl hid]
      | some fnd =>
          rw [hf] at hl2
          have hl3 : l2 ∈ (if (fnd.status != "deleted" && fnd.status != "sold") = true
              then markAsSoldWrite db uid lid else db) := hl2
          by_cases hg : (fnd.status != "deleted" && fnd.status != "sold") = true
          · rw [if_pos hg] at hl3
            have h2 := markAsSoldWrite_on_row hnd hl hl3 hid
            by_cases hc : (l.id == lid && l.seller_id == uid) = true
            · obtain ⟨hc1, _⟩ := Bool.and_eq_true_iff.mp hc
              have hfnd : fnd = l := find?_id_eq hnd hf hl (beq_iff_eq.mp hc1)
              rw [hfnd] at hg
              obtain ⟨hg1, hg2⟩ := Bool.and_eq_true_iff.mp hg
              rcases hterm with hs | hs
              · exact absurd hs (bne_iff_ne.mp hg2)
              · exact absurd hs (bne_iff_ne.mp hg1)
            · rw [h2, if_neg hc]
          · rw [if_neg hg] at hl3
            rw [listing_id_injective hnd hl3 hl hid]
  | markSoldBrowse uid lid =>
      simp only [applyListingAction, browseMarkAsSold] at hl2
      cases hf : db.find? (fun x => x.id == lid) with
      | none =>
          rw [hf] at hl2
          rw [listing_id_injective hnd hl2 hl hid]
      | some fnd =>
          rw [hf] at hl2
          have hl3 : l2 ∈ (if (fnd.status == "active" && fnd.seller_id == uid) = true
              then markAsSoldWrite db uid lid else db) := hl2
          by_cases hg : (fnd.status == "active" && fnd.seller_id == uid) = true
          · rw [if_pos hg] at hl3
            have h2 := markAsSoldWrite_on_row hnd hl hl3 hid
            by_cases hc : (l.id == lid && l.seller_id == uid) = true
            · obtain ⟨hc1, _⟩ := Bool.and_eq_true_iff.mp hc
              have hfnd : fnd = l := find?_id_eq hnd hf hl (beq_iff_eq.mp hc1)
              rw [hfnd] at hg
              obtain ⟨hg1, _⟩ := Bool.and_eq_true_iff.mp hg
              have hact : l.status = "active" := beq_iff_eq.mp hg1
              rcases hterm with hs | hs <;> rw [hs] at hact <;>
                exact absurd hact (by decide)
            · rw [h2, if_neg hc]
          · rw [if_neg hg] at hl3
            rw [listing_id_injective hnd hl3 hl hid]
  | pickupRequest lid =>
      simp only [applyListingAction, requestPickup] at hl2
      cases hf : db.find? (fun x => x.id == lid) with
      | none =>
          rw [hf] at hl2
          rw [listing_id_injective hnd hl2 hl hid]
      | some fnd =>
          rw [hf] at hl2
          have hl3 : l2 ∈ (if (fnd.status == "active") = true
              then requestPickupWrite db lid else db) := hl2
          by_cases hg : (fnd.status == "active") = true
          · rw [if_pos hg] at hl3
            have h2 := requestPickupWrite_on_row hnd hl hl3 hid
            by_cases hc : (l.id == lid) = true
            · have hfnd : fnd = l := find?_id_eq hnd hf hl (beq_iff_eq.mp hc)
              rw [hfnd] at hg
              have hact : l.status = "active" := beq_iff_eq.mp hg
              rcases hterm with hs | hs <;> rw [hs] at hact <;>
                exact absurd hact (by decide)
            · rw [h2, if_neg hc]
          · rw [if_neg hg] at hl3
            rw [listing_id_injective hnd hl3 hl hid]

/-- Witness for the terminal status theorem: a pickup request against
the sold demo listing leaves its status alone. -/
theorem listing_terminal_status_monotonic_witness :
    demoSold.status = demoSold.status :=
  listing_terminal_status_monotonic [demoSold] (by unfold ListingIdsNodup; decide)
    (ListingAction.pickupRequest 1) demoSold (by decide) (Or.inl rfl)
    demoSold (by decide) rfl

/-- Negotiation rows with equal primary keys in a well formed store are
the same row. -/
theorem negotiation_id_injective {db : NegotiationsDb}
    (h : (db.negotiations.map Negotiation.id).Nodup)
    {a b : Negotiation} (ha : a ∈ db.negotiations) (hb : b ∈ db.negotiations)
    (hab : a.id = b.id) : a = b :=
  List.inj_on_of_nodup_map h ha hb hab

/-- The insert of a row with a fresh primary key never reports a unique
violation: the only uniqueness constraint of the negotiations table is
the primary key. -/
theorem insertNegotiationRow_not_unique {db : NegotiationsDb} {row : Negotiation}
    (hfresh : ∀ n ∈ db.negotiations, n.id ≠ row.id) :
    insertNegotiationRow db row ≠ Except.error DbError.uniqueViolation := by
  unfold insertNegotiationRow
  have hc : ¬(db.negotiations.any (fun n => n.id == row.id) = true) := by
    intro h
    obtain ⟨x, hx, hbx⟩ := List.any_eq_true.mp h
    exact hfresh x hx (beq_iff_eq.mp hbx)
  rw [if_neg hc]
  split
  · simp
  · split <;> simp

/-- The successful insert appends the row and leaves the id supply and
the other tables alone. -/
theorem insertNegotiationRow_ok_shape {db : NegotiationsDb} {row : Negotiation}
    {db1 : NegotiationsDb} (h : insertNegotiationRow db row = .ok db1) :
    db1.negotiations = db.negotiations ++ [row] ∧ db1.nextId = db.nextId := by
  unfold insertNegotiationRow at h
  split at h
  · exact absurd h (by simp)
  · split at h
    · exact absurd h (by simp)
    · split at h
      · exact absurd h (by simp)
      · cases Except.ok.inj h
        exact ⟨rfl, rfl⟩

/-- Case analysis of the offer submission: either the store is
unchanged (invalid offer, missing listing, foreign key failure, or the
dead stored procedure fallback), or the insert succeeded and appended
the fresh pending row, or the insert reported a unique violation and
the fallback pending update ran. -/
theorem handleSubmitOffer_cases (db : NegotiationsDb) (uid lid : Nat) (offer : ℚ) :
    handleSubmitOffer db uid lid offer = db ∨
    (∃ listing db1, db.listings.find? (fun l => l.id == lid) = some listing ∧
      insertNegotiationRow db (submittedRow db uid lid offer listing.seller_id) = .ok db1 ∧
      handleSubmitOffer db uid lid offer = { db1 with nextId := db1.nextId + 1 } ∧
      db1.negotiations = db.negotiations ++ [submittedRow db uid lid offer listing.seller_id] ∧
      db1.nextId = db.nextId) ∨
    (∃ listing, db.listings.find? (fun l => l.id == lid) = some listing ∧
      insertNegotiationRow db (submittedRow db uid lid offer listing.seller_id) =
        .error .uniqueViolation ∧
      handleSubmitOffer db uid lid offer = fallbackPendingUpdate db lid uid offer) := by
  by_cases hoff : offer ≤ 0
  · refine Or.inl ?_
    unfold handleSubmitOffer
    rw [if_pos hoff]
  · cases hfind : db.listings.find? (fun l => l.id == lid) with
    | none =>
        refine Or.inl ?_
        unfold handleSubmitOffer
        rw [if_neg hoff, hfind]
    | some listing =>
        have heq0 : handleSubmitOffer db uid lid offer =
            submitInsertOutcome db uid lid offer
              (insertNegotiationRow db (submittedRow db uid lid offer listing.seller_id)) := by
          unfold handleSubmitOffer
          rw [if_neg hoff, hfind]
        cases hres : insertNegotiationRow db
            (submittedRow db uid lid offer listing.seller_id) with
        | ok db1 =>
            obtain ⟨hnegs, hnext⟩ := insertNegotiationRow_ok_shape hres
            refine Or.inr (Or.inl ⟨listing, db1, rfl, hres, ?_, hnegs, hnext⟩)
            rw [heq0, hres]
            rfl
        | error e =>
            cases e with
            | fkViolation =>
                refine Or.inl ?_
                rw [heq0, hres]
                rfl
            | uniqueViolation =>
                refine Or.inr (Or.inr ⟨listing, rfl, hres, ?_⟩)
                rw [heq0, hres]
                rfl
            | otherError =>
                refine Or.inl ?_
                rw [heq0, hres]
                rfl

/-- Row updates keep the store well formed when the update preserves
primary keys. -/
theorem updateWhere_wf {db : NegotiationsDb} {cond : Negotiation → Bool}
    {f : Negotiation → Negotiation} (hfid : ∀ m, (f m).id = m.id)
    (hwf : NegDbWf db) : NegDbWf (updateNegotiationsWhere db cond f) := by
  constructor
  · intro m hm
    obtain ⟨m0, hm0, hg⟩ := List.mem_map.mp hm
    have hid : m.id = m0.id := by
      rw [← hg]
      by_cases hc : cond m0 = true <;> simp [hc, hfid]
    show m.id < db.nextId
    rw [hid]
    exact hwf.idBound m0 hm0
  · show (List.map Negotiation.id (db.negotiations.map _)).Nodup
    rw [List.map_map]
    rw [List.map_congr_left (g := Negotiation.id) ?_]
    · exact hwf.idsNodup
    · intro m0 _
      show (if cond m0 then f m0 else m0).id = m0.id
      by_cases hc : cond m0 = true <;> simp [hc, hfid]

/-- Row updates preserve the no return to pending property of a given
primary key when the update never writes the pending status. -/
theorem updateWhere_q_preserved {db : NegotiationsDb} {cond : Negotiation → Bool}
    {f : Negotiation → Negotiation} (i : Nat)
    (hfst : ∀ m, (f m).status ≠ "pending")
    (hq : ∀ m ∈ db.negotiations, m.id = i → m.status ≠ "pending") :
    ∀ m ∈ (updateNegotiationsWhere db cond f).negotiations,
      m.id = i → m.status ≠ "pending" := by
  intro m hm hmi
  obtain ⟨m0, hm0, hg⟩ := List.mem_map.mp hm
  by_cases hc : cond m0 = true
  · rw [← hg, if_pos hc]
    exact hfst m0
  · rw [← hg, if_neg hc]
    refine hq m0 hm0 ?_
    rw [← hg, if_neg hc] at hmi
    exact hmi

/-- Every negotiation action keeps the store well formed. -/
theorem negAction_preserves_wf (db : NegotiationsDb) (a : NegAction)
    (hwf : NegDbWf db) : NegDbWf (applyNegAction a db) := by
  cases a with
  | submitOffer uid lid offer =>
      show NegDbWf (handleSubmitOffer db uid lid offer)
      rcases handleSubmitOffer_cases db uid lid offer with heq |
        ⟨listing, db1, hfind, hres, heq, hnegs, hnext⟩ | ⟨listing, hfind, hres, heq⟩
      · rw [heq]; exact hwf
      · rw [heq]
        constructor
        · intro m hm
          show m.id < db1.nextId + 1
          have hm1 : m ∈ db1.negotiations := hm
          rw [hnegs] at hm1
          rcases List.mem_append.mp hm1 with hm2 | hm2
          · exact Nat.lt_succ_of_lt (hnext ▸ hwf.idBound m hm2)
          · rw [List.mem_singleton.mp hm2, hnext]
            exact Nat.lt_succ_self _
        · show (db1.negotiations.map Negotiation.id).Nodup
          rw [hnegs, List.map_append]
          refine List.nodup_append.mpr
            ⟨hwf.idsNodup, List.nodup_singleton _, ?_⟩
          intro x hx hx1
          obtain ⟨m, hm, rfl⟩ := List.mem_map.mp hx
          simp only [List.map_cons, List.map_nil, List.mem_singleton] at hx1
          have := hwf.idBound m hm
          rw [hx1] at this
          exact absurd this (Nat.lt_irrefl _)
      · rw [heq]
        exact updateWhere_wf (fun m => rfl) hwf
  | managerAccept nid => exact updateWhere_wf (fun m => rfl) hwf
  | managerReject nid => exact updateWhere_wf (fun m => rfl) hwf
  | managerCounter nid amount =>
      show NegDbWf (handleCounterOffer db nid amount)
      unfold handleCounterOffer
      by_cases hc : amount ≤ 0
      · rw [if_pos hc]; exact hwf
      · rw [if_neg hc]; exact updateWhere_wf (fun m => rfl) hwf
  | dialogAccept nid => exact updateWhere_wf (fun m => rfl) hwf
  | dialogDecline nid => exact updateWhere_wf (fun m => rfl) hwf
  | pageAccept uid nid => exact updateWhere_wf (fun m => rfl) hwf
  | pageReject uid nid => exact updateWhere_wf (fun m => rfl) hwf

/-- No negotiation action lowers the id supply. -/
theorem negAction_nextId_mono (db : NegotiationsDb) (a : NegAction) :
    db.nextId ≤ (applyNegAction a db).nextId := by
  cases a with
  | submitOffer uid lid offer =>
      show db.nextId ≤ (handleSubmitOffer db uid lid offer).nextId
      rcases handleSubmitOffer_cases db uid lid offer with heq |
        ⟨listing, db1, hfind, hres, heq, hnegs, hnext⟩ | ⟨listing, hfind, hres, heq⟩
      · rw [heq]
      · rw [heq]
        show db.nextId ≤ db1.nextId + 1
        rw [hnext]
        exact Nat.le_succ _
      · rw [heq]
        exact Nat.le_refl _
  | managerAccept nid => exact Nat.le_refl _
  | managerReject nid => exact Nat.le_refl _
  | managerCounter nid amount =>
      show db.nextId ≤ (handleCounterOffer db nid amount).nextId
      unfold handleCounterOffer
      by_cases hc : amount ≤ 0
      · rw [if_pos hc]
      · rw [if_neg hc]; exact Nat.le_refl _
  | dialogAccept nid => exact Nat.le_refl _
  | dialogDecline nid => exact Nat.le_refl _
  | pageAccept uid nid => exact Nat.le_refl _
  | pageReject uid nid => exact Nat.le_refl _

/-- The offer submission path never sets the status of an existing row
of the given primary key to pending: the insert only appends a row with
a fresh key, and the unique violation branch that would reset the pair
to pending is unreachable because the table carries no uniqueness
constraint beyond the fresh primary key. -/
theorem submit_q_preserved (db : NegotiationsDb) (uid lid : Nat) (offer : ℚ)
    (i : Nat) (hwf : NegDbWf db) (hi : i < db.nextId)
    (hq : ∀ m ∈ db.negotiations, m.id = i → m.status ≠ "pending") :
    ∀ m ∈ (handleSubmitOffer db uid lid offer).negotiations,
      m.id = i → m.status ≠ "pending" := by
  intro m hm hmi
  rcases handleSubmitOffer_cases db uid lid offer with heq |
    ⟨listing, db1, hfind, hres, heq, hnegs, hnext⟩ | ⟨listing, hfind, hres, heq⟩
  · rw [heq] at hm
    exact hq m hm hmi
  · rw [heq] at hm
    have hm1 : m ∈ db1.negotiations := hm
    rw [hnegs] at hm1
    rcases List.mem_append.mp hm1 with hm2 | hm2
    · exact hq m hm2 hmi
    · rw [List.mem_singleton.mp hm2] at hmi
      have hlt : i < db.nextId := hi
      rw [← hmi] at hlt
      exact absurd hlt (Nat.lt_irrefl _)
  · refine absurd hres (insertNegotiationRow_not_unique ?_)
    intro n hn
    exact Nat.ne_of_lt (hwf.idBound n hn)

/-- Every negotiation action preserves the no return to pending
property of a given primary key that is below the id supply. -/
theorem negAction_q_preserved (db : NegotiationsDb) (a : NegAction) (i : Nat)
    (hwf : NegDbWf db) (hi : i < db.nextId)
    (hq : ∀ m ∈ db.negotiations, m.id = i → m.status ≠ "pending") :
    ∀ m ∈ (applyNegAction a db).negotiations, m.id = i → m.status ≠ "pending" := by
  have hacc : ∀ m : Negotiation,
      ({ m with status := "accepted" } : Negotiation).status ≠ "pending" := by
    intro m
    show ("accepted" : String) ≠ "pending"
    decide
  have hrej : ∀ m : Negotiation,
      ({ m with status := "rejected" } : Negotiation).status ≠ "pending" := by
    intro m
    show ("rejected" : String) ≠ "pending"
    decide
  cases a with
  | submitOffer uid lid offer => exact submit_q_preserved db uid lid offer i hwf hi hq
  | managerAccept nid => exact updateWhere_q_preserved i hacc hq
  | managerReject nid => exact updateWhere_q_preserved i hrej hq
  | managerCounter nid amount =>
      show ∀ m ∈ (handleCounterOffer db nid amount).negotiations,
        m.id = i → m.status ≠ "pending"
      unfold handleCounterOffer
      by_cases hc : amount ≤ 0
      · rw [if_pos hc]; exact hq
      · rw [if_neg hc]
        refine updateWhere_q_preserved i ?_ hq
        intro m
        show ("countered" : String) ≠ "pending"
        decide
  | dialogAccept nid => exact updateWhere_q_preserved i hacc hq
  | dialogDecline nid => exact updateWhere_q_preserved i hrej hq
  | pageAccept uid nid => exact updateWhere_q_preserved i hacc hq
  | pageReject uid nid => exact updateWhere_q_preserved i hrej hq

/-- C1.  Once a negotiation row is accepted or rejected, no sequence of
program operations (seller accept, reject or counter; buyer accept or
decline of a counter, from either page; the offer submission path with
its unique violation fallback) ever brings that row back to pending. -/
theorem negotiation_no_return_to_pending (db : NegotiationsDb) (hwf : NegDbWf db)
    (acts : List NegAction) (n : Negotiation) (hn : n ∈ db.negotiations)
    (hterm : n.status = "accepted" ∨ n.status = "rejected")
    (n2 : Negotiation)
    (hn2 : n2 ∈ (acts.foldl (fun d a => applyNegAction a d) db).negotiations)
    (hid : n2.id = n.id) : n2.status ≠ "pending" := by
  have main : ∀ (acts : List NegAction) (d : NegotiationsDb),
      NegDbWf d → n.id < d.nextId →
      (∀ m ∈ d.negotiations, m.id = n.id → m.status ≠ "pending") →
      ∀ m ∈ (acts.foldl (fun x a => applyNegAction a x) d).negotiations,
        m.id = n.id → m.status ≠ "pending" := by
    intro acts
    induction acts with
    | nil =>
        intro d _ _ hq
        simpa using hq
    | cons a rest ih =>
        intro d hwfd hbound hq
        exact ih (applyNegAction a d) (negAction_preserves_wf d a hwfd)
          (Nat.lt_of_lt_of_le hbound (negAction_nextId_mono d a))
          (negAction_q_preserved d a n.id hwfd hbound hq)
  have hstart : ∀ m ∈ db.negotiations, m.id = n.id → m.status ≠ "pending" := by
    intro m hm hmi
    have hmn : m = n := negotiation_id_injective hwf.idsNodup hm hn hmi
    rcases hterm with hs | hs <;> rw [hmn, hs] <;> decide
  exact main acts db hwf (hwf.idBound n hn) hstart n2 hn2 hid

/-- Witness for the no return to pending theorem: after the buyer
accepts the counter on an accepted demo negotiation, it is still not
pending. -/
theorem negotiation_no_return_to_pending_witness :
    { demoNeg with status := "accepted" }.status ≠ "pending" := by
  refine negotiation_no_return_to_pending
    { demoNegDb with negotiations := [{ demoNeg with status := "accepted" }] }
    ⟨?_, ?_⟩ [NegAction.dialogAccept 0] { demoNeg with status := "accepted" }
    (by decide) (Or.inl rfl) { demoNeg with status := "accepted" } (by decide) rfl
  · intro m hm
    rw [List.mem_singleton.mp hm]
    decide
  · decide

/-- Row updates that keep the listing and dealer columns leave the row
count of every (listing, dealer) pair unchanged. -/
theorem updateWhere_pairCount (db : NegotiationsDb) (cond : Negotiation → Bool)
    (f : Negotiation → Negotiation)
    (hf : ∀ m, (f m).listing_id = m.listing_id ∧ (f m).dealer_id = m.dealer_id)
    (l d : Nat) :
    pairCount (updateNegotiationsWhere db cond f) l d = pairCount db l d := by
  unfold pairCount updateNegotiationsWhere
  rw [List.countP_map]
  refine List.countP_congr ?_
  intro m _
  by_cases hc : cond m = true
  · simp [Function.comp, hc, (hf m).1, (hf m).2]
  · simp [Function.comp, hc]

/-- The pending rows of a pair are among its rows. -/
theorem pendingPair_le_pair (db : NegotiationsDb) (l d : Nat) :
    pendingPairCount db l d ≤ pairCount db l d := by
  unfold pendingPairCount pairCount
  refine List.countP_mono_left ?_
  intro n _ hn
  exact Bool.and_eq_true_iff.mp hn |>.1

/-- Each workflow step keeps the store well formed and keeps at most
one row per (listing, dealer) pair: the offer form is only reachable
when the pair has no row at all, and no other step inserts rows. -/
theorem negStep_preserves_pair_inv {db db1 : NegotiationsDb}
    (hwf : NegDbWf db) (hinv : ∀ l d, pairCount db l d ≤ 1)
    (hs : NegStep db db1) :
    NegDbWf db1 ∧ ∀ l d, pairCount db1 l d ≤ 1 := by
  cases hs with
  | submit uid lid offer hguard =>
      constructor
      · exact negAction_preserves_wf db (NegAction.submitOffer uid lid offer) hwf
      · intro l d
        rcases handleSubmitOffer_cases db uid lid offer with heq |
          ⟨listing, db1, hfind, hres, heq, hnegs, hnext⟩ | ⟨listing, hfind, hres, heq⟩
        · rw [heq]
          exact hinv l d
        · rw [heq]
          show (db1.negotiations.countP _) ≤ 1
          rw [hnegs, List.countP_append]
          by_cases hrow : ((submittedRow db uid lid offer listing.seller_id).listing_id == l &&
              (submittedRow db uid lid offer listing.seller_id).dealer_id == d) = true
          · obtain ⟨hb1, hb2⟩ := Bool.and_eq_true_iff.mp hrow
            have hl : lid = l := beq_iff_eq.mp hb1
            have hd : uid = d := beq_iff_eq.mp hb2
            have hzero : db.negotiations.countP
                (fun n => n.listing_id == l && n.dealer_id == d) = 0 := by
              rw [List.countP_eq_zero]
              intro n hn hpn
              have hall := List.all_eq_true.mp hguard n hn
              rw [← hl, ← hd] at hpn
              simp [hpn] at hall
            rw [hzero]
            simp [List.countP_cons, hrow]
          · have hone : List.countP (fun n => n.listing_id == l && n.dealer_id == d)
                [submittedRow db uid lid offer listing.seller_id] = 0 := by
              rw [List.countP_eq_zero]
              intro n hn
              rw [List.mem_singleton.mp hn]
              exact fun hp => hrow hp
            rw [hone]
            simpa using hinv l d
        · rw [heq]
          show pairCount (fallbackPendingUpdate db lid uid offer) l d ≤ 1
          unfold fallbackPendingUpdate
          exact (updateWhere_pairCount db
            (fun n => n.listing_id == lid && n.dealer_id == uid)
            (fun n => { n with initial_offer := offer, status := "pending" })
            (fun m => ⟨rfl, rfl⟩) l d).trans_le (hinv l d)
  | managerAccept nid =>
      refine ⟨negAction_preserves_wf db (NegAction.managerAccept nid) hwf, ?_⟩
      intro l d
      exact (updateWhere_pairCount db (fun n => n.id == nid)
        (fun n => { n with status := "accepted" }) (fun m => ⟨rfl, rfl⟩) l d).trans_le
        (hinv l d)
  | managerReject nid =>
      refine ⟨negAction_preserves_wf db (NegAction.managerReject nid) hwf, ?_⟩
      intro l d
      exact (updateWhere_pairCount db (fun n => n.id == nid)
        (fun n => { n with status := "rejected" }) (fun m => ⟨rfl, rfl⟩) l d).trans_le
        (hinv l d)
  | managerCounter nid amount =>
      refine ⟨negAction_preserves_wf db (NegAction.managerCounter nid amount) hwf, ?_⟩
      intro l d
      show pairCount (handleCounterOffer db nid amount) l d ≤ 1
      unfold handleCounterOffer
      by_cases hc : amount ≤ 0
      · rw [if_pos hc]
        exact hinv l d
      · rw [if_neg hc]
        exact (updateWhere_pairCount db (fun n => n.id == nid)
          (fun n => { n with counter_offer := some amount, status := "countered" })
          (fun m => ⟨rfl, rfl⟩) l d).trans_le (hinv l d)
  | dialogAccept nid =>
      refine ⟨negAction_preserves_wf db (NegAction.dialogAccept nid) hwf, ?_⟩
      intro l d
      exact (updateWhere_pairCount db (fun n => n.id == nid)
        (fun n => { n with status := "accepted" }) (fun m => ⟨rfl, rfl⟩) l d).trans_le
        (hinv l d)
  | dialogDecline nid =>
      refine ⟨negAction_preserves_wf db (NegAction.dialogDecline nid) hwf, ?_⟩
      intro l d
      exact (updateWhere_pairCount db (fun n => n.id == nid)
        (fun n => { n with status := "rejected" }) (fun m => ⟨rfl, rfl⟩) l d).trans_le
        (hinv l d)
  | pageAccept uid nid =>
      refine ⟨negAction_preserves_wf db (NegAction.pageAccept uid nid) hwf, ?_⟩
      intro l d
      exact (updateWhere_pairCount db (fun n => n.id == nid && n.dealer_id == uid)
        (fun n => { n with status := "accepted" }) (fun m => ⟨rfl, rfl⟩) l d).trans_le
        (hinv l d)
  | pageReject uid nid =>
      refine ⟨negAction_preserves_wf db (NegAction.pageReject uid nid) hwf, ?_⟩
      intro l d
      exact (updateWhere_pairCount db (fun n => n.id == nid && n.dealer_id == uid)
        (fun n => { n with status := "rejected" }) (fun m => ⟨rfl, rfl⟩) l d).trans_le
        (hinv l d)

/-- Reachable stores are well formed and hold at most one row per
(listing, dealer) pair. -/
theorem negReachable_pair_inv {db : NegotiationsDb} (h : NegReachable db) :
    NegDbWf db ∧ ∀ l d, pairCount db l d ≤ 1 := by
  induction h with
  | init db h0 =>
      refine ⟨⟨?_, ?_⟩, ?_⟩
      · intro n hn
        rw [h0] at hn
        exact absurd hn (List.not_mem_nil n)
      · rw [h0]
        exact List.nodup_nil
      · intro l d
        unfold pairCount
        rw [h0]
        exact Nat.zero_le 1
  | step db db1 hreach hs ih =>
      exact negStep_preserves_pair_inv ih.1 ih.2 hs

/-- C2.  In every store reachable by the workflow from an empty
negotiations table, each (listing, dealer) pair has at most one pending
row, because the dialog offers the form only after its check found no
existing row for the pair; and the database itself enforces nothing of
the sort: an insert whose primary key is fresh and whose references
resolve succeeds whatever rows the pair already has. -/
theorem single_pending_negotiation_invariant :
    (∀ db, NegReachable db → ∀ l d, pendingPairCount db l d ≤ 1) ∧
    (∀ (db : NegotiationsDb) (row : Negotiation),
      (∀ n ∈ db.negotiations, n.id ≠ row.id) →
      (∃ lrow ∈ db.listings, lrow.id = row.listing_id) →
      row.dealer_id ∈ db.userIds → row.seller_id ∈ db.userIds →
      insertNegotiationRow db row =
        .ok { db with negotiations := db.negotiations ++ [row] }) := by
  constructor
  · intro db h l d
    exact (pendingPair_le_pair db l d).trans ((negReachable_pair_inv h).2 l d)
  · intro db row hfresh hlst hdeal hsell
    obtain ⟨lrow, hlmem, hlid⟩ := hlst
    have h1 : (db.negotiations.any fun n => n.id == row.id) = false := by
      rw [List.any_eq_false]
      intro x hx
      simp [hfresh x hx]
    have h2 : (db.listings.any fun l0 => l0.id == row.listing_id) = true :=
      List.any_eq_true.mpr ⟨lrow, hlmem, beq_iff_eq.mpr hlid⟩
    have h3 : db.userIds.contains row.dealer_id = true := by
      rw [List.contains_iff_exists_mem_beq]
      exact ⟨row.dealer_id, hdeal, by simp⟩
    have h4 : db.userIds.contains row.seller_id = true := by
      rw [List.contains_iff_exists_mem_beq]
      exact ⟨row.seller_id, hsell, by simp⟩
    unfold insertNegotiationRow
    rw [h1, h2, h3, h4]
    simp

/-- Witness for the pair invariant theorem: the empty store is
reachable and satisfies the bound, and a second pending row for the
pair of the demo negotiation is accepted by the insert because no pair
constraint exists. -/
theorem single_pending_negotiation_invariant_witness :
    pendingPairCount { demoNegDb with negotiations := [] } 1 3 ≤ 1 ∧
    insertNegotiationRow demoNegDb { demoNeg with id := 1 } =
      .ok { demoNegDb with
            negotiations := demoNegDb.negotiations ++ [{ demoNeg with id := 1 }] } :=
  ⟨single_pending_negotiation_invariant.1 _ (NegReachable.init _ rfl) 1 3,
   single_pending_negotiation_invariant.2 demoNegDb { demoNeg with id := 1 }
     (by decide) ⟨demoBase, by decide, by decide⟩ (by decide) (by decide)⟩

end ScrapX
